import Mathlib

/-!
# miniwiki: the request handlers of `miniwiki.go`

A shallow embedding of the two HTTP handlers `Wiki.editPage` and
`Wiki.showPage`, of the two path patterns and of `Wiki.getPageFilePath`,
together with the properties of the page controller.

What the handlers call outside the program is modelled as follows.

* The file system is a map from file paths to `File` records (`Store`); the
  four calls the handlers make (`os.Stat`, `os.ReadFile`, `os.WriteFile`,
  `os.Remove`) can fail, the failures being part of the store state.
* `bcrypt.CompareHashAndPassword` and the goldmark `Convert` call are
  uninterpreted functions, gathered in `Lib`.
* A response is the call the handler makes on the `http.ResponseWriter`:
  `http.Redirect`, `http.Error`, or the execution of `templatePage` on a
  `WikiPage` value.
* `filepath.Clean`, `filepath.Dir` and `filepath.Base` follow the Go library
  for Unix paths (separator `/`, no volume names).
-/

namespace Miniwiki

/-! ## Path patterns -/

/-- The character class `[a-zA-Z0-9_-]` of both path patterns. -/
def isNameChar (c : Char) : Bool :=
  ('a' ≤ c && c ≤ 'z') || ('A' ≤ c && c ≤ 'Z') || ('0' ≤ c && c ≤ '9') || c == '_' || c == '-'

/-- The pattern `^/([a-zA-Z0-9_-]*)$`: the result of `FindStringSubmatch` is
`none` for `nil` and `some g` when the path matches with first group `g`. -/
def validPagePath (path : String) : Option String :=
  match path.data with
  | '/' :: rest => if rest.all isNameChar then some (String.mk rest) else none
  | _ => none

/-- The pattern `^/e/([a-zA-Z0-9_-]+)$`, read as `validPagePath` is. -/
def validEditPath (path : String) : Option String :=
  match path.data with
  | '/' :: 'e' :: '/' :: rest =>
    if rest ≠ [] ∧ rest.all isNameChar then some (String.mk rest) else none
  | _ => none

/-! ## `path/filepath` on Unix -/

/-- The elements of a path: the pieces between the separators `/`. -/
def pathElements : List Char → List (List Char)
  | [] => [[]]
  | c :: cs =>
    if c = '/' then [] :: pathElements cs
    else
      match pathElements cs with
      | [] => [[c]]
      | e :: es => (c :: e) :: es

/-- One element handled by the loop of `filepath.Clean`. The output built so
far is `out`, last element first. An empty element and `.` are dropped; `..`
removes the last element when that is not itself a leading `..`, is appended
to a path that is not rooted, and is dropped at the root; any other element
is appended. -/
def cleanStep (rooted : Bool) (out : List (List Char)) (e : List Char) : List (List Char) :=
  if e = [] ∨ e = ['.'] then out
  else if e = ['.', '.'] then
    match out with
    | top :: below =>
      if top = ['.', '.'] then (if rooted then out else e :: out) else below
    | [] => if rooted then out else e :: out
  else e :: out

/-- The elements of `out` (last element first) joined by `/`. -/
def joinElements : List (List Char) → List Char
  | [] => []
  | [e] => e
  | e :: below => joinElements below ++ '/' :: e

/-- The text `filepath.Clean` returns for the output `out`: a leading `/`
for a rooted path, and `.` for an empty result. -/
def cleanOutput (rooted : Bool) (out : List (List Char)) : List Char :=
  if rooted then '/' :: joinElements out
  else if out = [] then ['.'] else joinElements out

/-- The function `filepath.Clean` on the characters of a path. -/
def cleanChars (path : List Char) : List Char :=
  match path with
  | [] => ['.']
  | c :: _ =>
    let rooted : Bool := c = '/'
    cleanOutput rooted ((pathElements path).foldl (cleanStep rooted) [])

/-- The function `filepath.Clean`. -/
def Clean (path : String) : String :=
  String.mk (cleanChars path.data)

/-- The part of a path up to and including its last `/` (empty when there is none). -/
def dirPart : List Char → List Char
  | [] => []
  | c :: cs =>
    if '/' ∈ cs then c :: dirPart cs
    else if c = '/' then ['/'] else []

/-- The function `filepath.Dir`: all but the last element of the path, cleaned. -/
def Dir (path : String) : String :=
  String.mk (cleanChars (dirPart path.data))

/-- Removes the trailing separators of a path. -/
def stripTrailingSeparators (cs : List Char) : List Char :=
  (cs.reverse.dropWhile (fun c => c == '/')).reverse

/-- The part of a path after its last `/` (the whole path when there is none). -/
def lastElement (cs : List Char) : List Char :=
  (cs.reverse.takeWhile (fun c => c != '/')).reverse

/-- The function `filepath.Base`: the last element of the path. -/
def Base (path : String) : String :=
  if path = "" then "."
  else
    let e := lastElement (stripTrailingSeparators path.data)
    if e = [] then "/" else String.mk e

/-- An element that `filepath.Clean` keeps as it is: not empty, not `.`, not
`..`, and without separator. -/
def IsRealElement (e : List Char) : Prop :=
  e ≠ [] ∧ e ≠ ['.'] ∧ e ≠ ['.', '.'] ∧ '/' ∉ e

/-- The shape of the output of `filepath.Clean`, last element first: real
elements above leading `..` elements, which a rooted path does not have. -/
def Canon (rooted : Bool) (out : List (List Char)) : Prop :=
  ∃ (R : List (List Char)) (k : Nat), out = R ++ List.replicate k ['.', '.'] ∧
    (∀ e ∈ R, IsRealElement e) ∧ (rooted = true → k = 0)

/-! ## The wiki and its page files -/

/-- The struct `Wiki`. -/
structure Wiki where
  Name : String
  PassHash : String
  Editable : Bool
  Dir : String
  deriving DecidableEq, Repr

/-- The struct `WikiPage`, the value handed to the page template. -/
structure WikiPage where
  WikiName : String
  WikiEditable : Bool
  PageName : String
  Body : String
  EditPage : Bool
  deriving DecidableEq, Repr

/-- The constant `HTTPTextInternalServerError`. -/
def HTTPTextInternalServerError : String := "500 internal server error"

/-- The method `getPageFilePath`: `filepath.Clean(fmt.Sprintf("%s/%s.md", wiki.Dir, name))`. -/
def Wiki.getPageFilePath (wiki : Wiki) (name : String) : String :=
  Clean (wiki.Dir ++ "/" ++ name ++ ".md")

/-- The construction of the wiki in `main` from the flags `-name`, `-pass` and
`-dir` and from the hash `bcrypt.GenerateFromPassword` returned for the
password: editing is enabled exactly when the password differs from
`DefaultPass`, the empty string. -/
def newWiki (name pass dir passHash : String) : Wiki :=
  { Name := name, PassHash := passHash, Editable := pass != "", Dir := dir }

/-! ## The page store -/

/-- How a failed file operation is seen by the handlers: `errors.Is(err,
os.ErrNotExist)` holds for `notExist` and fails for `other`. -/
inductive IOError where
  | notExist
  | other
  deriving DecidableEq, Repr

/-- What the file system holds at one path. `content` is the text of the file,
`none` when there is no file. The four flags are failures of the environment:
`pathErr` makes every operation on the path fail (a directory of the path that
cannot be searched, a name that is too long); `readErr` makes reading an
existing file fail, `removeErr` removing it (missing permissions, a directory
in place of the file); `writeErr` makes writing fail (a missing or read-only
directory, a read-only file, a full disk). The flags belong to the environment:
no operation changes them. -/
structure File where
  content : Option String
  pathErr : Bool
  readErr : Bool
  writeErr : Bool
  removeErr : Bool
  deriving DecidableEq, Repr

/-- The state of the file system: what is found at each path. -/
abbrev Store := String → File

/-- The call `os.Stat(file)`, reduced to its error (`none` for `nil`). -/
def Stat (s : Store) (file : String) : Option IOError :=
  if (s file).pathErr then some IOError.other
  else
    match (s file).content with
    | none => some IOError.notExist
    | some _ => none

/-- The call `os.ReadFile(file)`: the content read and the error. -/
def ReadFile (s : Store) (file : String) : String × Option IOError :=
  if (s file).pathErr then ("", some IOError.other)
  else
    match (s file).content with
    | none => ("", some IOError.notExist)
    | some c => if (s file).readErr then ("", some IOError.other) else (c, none)

/-- The call `os.WriteFile(file, data, 0640)`: the store after the call and the
error. A failed write is taken to leave the store as it was. -/
def WriteFile (s : Store) (file data : String) : Store × Option IOError :=
  if (s file).pathErr ∨ (s file).writeErr then (s, some IOError.other)
  else (Function.update s file { s file with content := some data }, none)

/-- The call `os.Remove(file)`: the store after the call and the error. -/
def Remove (s : Store) (file : String) : Store × Option IOError :=
  if (s file).pathErr then (s, some IOError.other)
  else
    match (s file).content with
    | none => (s, some IOError.notExist)
    | some _ =>
      if (s file).removeErr then (s, some IOError.other)
      else (Function.update s file { s file with content := none }, none)

/-! ## Libraries, requests and responses -/

/-- The library functions the handlers call. `CompareHashAndPassword hash pass`
is `true` when `bcrypt.CompareHashAndPassword` returns `nil` and `false` when it
returns an error. `Convert source` is the HTML the goldmark converter of
`showPage` writes for `source`, `none` when `Convert` returns an error. -/
structure Lib where
  CompareHashAndPassword : String → String → Bool
  Convert : String → Option String

/-- What a handler reads of an `http.Request`: `r.URL.Path`, `r.Method` and
the outcome of `r.ParseForm()`, which is `none` when it returns an error and
otherwise the parsed fields, as pairs of a key and a value. -/
structure Request where
  Path : String
  Method : String
  Form : Option (List (String × String))
  deriving DecidableEq, Repr

/-- The call `r.FormValue(key)` on a parsed form: the first value of the key,
the empty string when the key is absent. -/
def formValue (form : List (String × String)) (key : String) : String :=
  match form.lookup key with
  | some v => v
  | none => ""

/-- The constants `http.MethodPost`, `http.MethodGet`, `http.StatusFound` and
`http.StatusPermanentRedirect`. -/
def MethodPost : String := "POST"

/-- See `MethodPost`. -/
def MethodGet : String := "GET"

/-- See `MethodPost`. -/
def StatusFound : Nat := 302

/-- See `MethodPost`. -/
def StatusPermanentRedirect : Nat := 308

/-- The content type both handlers set before they execute the template. -/
def htmlContentType : String := "text/html; charset=utf-8"

/-- What a handler does with the `http.ResponseWriter`: `http.Redirect(w, r,
url, code)`, `http.Error(w, text, code)` (the text is sent followed by a line
break), or setting the `Content-Type` header and executing `templatePage` on a
page view (status 200). With `empty` the handler returns without any call on
the writer, and the server answers with status 200 and an empty body. -/
inductive Response where
  | redirect (url : String) (code : Nat)
  | error (text : String) (code : Nat)
  | page (contentType : String) (view : WikiPage)
  | empty
  deriving DecidableEq, Repr

/-- The status code of a response. -/
def Response.status : Response → Nat
  | Response.redirect _ code => code
  | Response.error _ code => code
  | Response.page _ _ => 200
  | Response.empty => 200

/-- The `Location` a response redirects to, if it is a redirect. -/
def Response.location : Response → Option String
  | Response.redirect url _ => some url
  | _ => none

/-- The page view a response renders, if it renders one. -/
def Response.view : Response → Option WikiPage
  | Response.page _ v => some v
  | _ => none

/-- The calls a handler makes on the file system and on the libraries. -/
inductive Call where
  | stat (file : String)
  | readFile (file : String)
  | writeFile (file data : String)
  | remove (file : String)
  | compareHashAndPassword (hash pass : String)
  | convert (source : String)
  deriving DecidableEq, Repr

/-- Whether a call is a file-system call. -/
def Call.isStoreCall : Call → Bool
  | Call.stat _ => true
  | Call.readFile _ => true
  | Call.writeFile _ _ => true
  | Call.remove _ => true
  | _ => false

/-- The result of handling one request: the response, the store afterwards and
the calls made, in order. -/
structure Outcome where
  resp : Response
  store : Store
  calls : List Call

/-! ## The handlers -/

/-- The handler `editPage`. The `switch` on `r.Method` has three clauses: `case
http.MethodPost`, `default` and `case http.MethodGet`. A Go clause does not
fall through to the next one without a `fallthrough` statement, and the body of
the `default` clause is empty, so a method other than POST and GET leaves the
`switch` without any statement executed. -/
def Wiki.editPage (lib : Lib) (wiki : Wiki) (r : Request) (s : Store) : Outcome :=
  match validEditPath r.Path with
  | none => ⟨Response.redirect "/" StatusPermanentRedirect, s, []⟩
  | some page =>
    if !wiki.Editable then
      ⟨Response.redirect ("/" ++ page) StatusFound, s, []⟩
    else
      let file := wiki.getPageFilePath page
      if r.Method = MethodPost then
        match r.Form with
        | none => ⟨Response.error HTTPTextInternalServerError 500, s, []⟩
        | some form =>
          let body := formValue form "body"
          let pass := formValue form "pass"
          let cmp := Call.compareHashAndPassword wiki.PassHash pass
          if lib.CompareHashAndPassword wiki.PassHash pass = false then
            ⟨Response.page htmlContentType
              { WikiName := wiki.Name, WikiEditable := wiki.Editable, PageName := page,
                Body := body, EditPage := true }, s, [cmp]⟩
          else if body = "" then
            match Remove s file with
            | (s', some _) =>
              ⟨Response.error HTTPTextInternalServerError 500, s', [cmp, Call.remove file]⟩
            | (s', none) =>
              ⟨Response.redirect "/" StatusPermanentRedirect, s', [cmp, Call.remove file]⟩
          else
            match WriteFile s file body with
            | (s', some _) =>
              ⟨Response.error HTTPTextInternalServerError 500, s', [cmp, Call.writeFile file body]⟩
            | (s', none) =>
              ⟨Response.redirect ("/" ++ page) StatusFound, s', [cmp, Call.writeFile file body]⟩
      else if r.Method = MethodGet then
        match ReadFile s file with
        | (content, err) =>
          if err ≠ none ∧ err ≠ some IOError.notExist then
            ⟨Response.error HTTPTextInternalServerError 500, s, [Call.readFile file]⟩
          else
            ⟨Response.page htmlContentType
              { WikiName := wiki.Name, WikiEditable := wiki.Editable, PageName := page,
                Body := content, EditPage := true }, s, [Call.readFile file]⟩
      else
        ⟨Response.empty, s, []⟩

/-- The handler `showPage`. -/
def Wiki.showPage (lib : Lib) (wiki : Wiki) (r : Request) (s : Store) : Outcome :=
  match validPagePath r.Path with
  | none => ⟨Response.redirect "/" StatusPermanentRedirect, s, []⟩
  | some m =>
    let page := if m = "" then "home" else m
    let file := wiki.getPageFilePath page
    if Stat s file = some IOError.notExist then
      ⟨Response.redirect ("/e/" ++ page) StatusFound, s, [Call.stat file]⟩
    else
      match ReadFile s file with
      | (_, some _) =>
        ⟨Response.error HTTPTextInternalServerError 500, s, [Call.stat file, Call.readFile file]⟩
      | (content, none) =>
        match lib.Convert content with
        | none =>
          ⟨Response.error HTTPTextInternalServerError 500, s,
            [Call.stat file, Call.readFile file, Call.convert content]⟩
        | some html =>
          ⟨Response.page htmlContentType
            { WikiName := wiki.Name, WikiEditable := wiki.Editable, PageName := page,
              Body := html, EditPage := false }, s,
            [Call.stat file, Call.readFile file, Call.convert content]⟩


/-! ## Fixtures for the concrete checks -/

/-- A library in which the hash of a password `p` is `hash:p` and the converter
wraps its input in a paragraph. -/
def demoLib : Lib :=
  ⟨fun hash pass => hash == "hash:" ++ pass, fun source => some ("<p>" ++ source ++ "</p>")⟩

/-- A library whose converter returns an error. -/
def brokenLib : Lib :=
  ⟨fun hash pass => hash == "hash:" ++ pass, fun _ => none⟩

/-- A file system without any file and without failures. -/
def emptyStore : Store := fun _ => ⟨none, false, false, false, false⟩

/-- The wiki `main` builds for `-name wiki -pass secret -dir ./pages/`. -/
def demoWiki : Wiki := newWiki "wiki" "secret" "./pages/" "hash:secret"

/-- The wiki `main` builds when no password is given. -/
def readOnlyWiki : Wiki := newWiki "wiki" "" "./pages/" "hash:"

/-- The wiki `main` builds for `-pass secret -dir ""`. -/
def rootDirWiki : Wiki := newWiki "wiki" "secret" "" "hash:secret"

/-- A file system whose only file is `pages/Foo.md`, with the given content and
failure flags. -/
def fooStore (f : File) : Store := fun file => if file = "pages/Foo.md" then f else emptyStore file

/-- A POST of the edit form of page `Foo`. -/
def postFoo (body pass : String) : Request :=
  ⟨"/e/Foo", "POST", some [("body", body), ("pass", pass)]⟩

/-! ## Cleaning paths -/

theorem pathElements_sep (cs : List Char) :
    pathElements ('/' :: cs) = [] :: pathElements cs := by
  rw [pathElements]
  simp

theorem pathElements_ne_nil (cs : List Char) : pathElements cs ≠ [] := by
  cases cs with
  | nil => simp [pathElements]
  | cons c cs =>
    rw [pathElements]
    by_cases hc : c = '/'
    · simp [hc]
    · rw [if_neg hc]
      split <;> simp

theorem pathElements_cons (c : Char) (cs : List Char) (hc : c ≠ '/') :
    ∃ e es, pathElements cs = e :: es ∧ pathElements (c :: cs) = (c :: e) :: es := by
  rcases hp : pathElements cs with _ | ⟨e, es⟩
  · exact absurd hp (pathElements_ne_nil cs)
  · refine ⟨e, es, rfl, ?_⟩
    rw [pathElements, if_neg hc, hp]

theorem pathElements_append_sep (a b : List Char) :
    pathElements (a ++ '/' :: b) = pathElements a ++ pathElements b := by
  induction a with
  | nil =>
    rw [List.nil_append, pathElements_sep]
    rfl
  | cons c a ih =>
    rw [List.cons_append]
    by_cases hc : c = '/'
    · rw [hc, pathElements_sep, pathElements_sep, ih]
      rfl
    · obtain ⟨e, es, h1, h2⟩ := pathElements_cons c a hc
      obtain ⟨e', es', h1', h2'⟩ := pathElements_cons c (a ++ '/' :: b) hc
      rw [h2, h2']
      rw [ih, h1] at h1'
      rw [List.cons_append] at h1'
      injection h1' with h3 h4
      rw [← h3, ← h4]
      rfl

theorem pathElements_of_noSep (e : List Char) (h : '/' ∉ e) : pathElements e = [e] := by
  induction e with
  | nil => rfl
  | cons c e ih =>
    have hc : c ≠ '/' := fun hc => h (by rw [hc]; exact List.mem_cons_self _ _)
    have he : '/' ∉ e := fun he => h (List.mem_cons_of_mem _ he)
    rw [pathElements, if_neg hc, ih he]

theorem pathElements_noSep (cs : List Char) : ∀ e ∈ pathElements cs, '/' ∉ e := by
  induction cs with
  | nil =>
    intro e he
    simp [pathElements] at he
    rw [he]
    exact List.not_mem_nil _
  | cons c cs ih =>
    intro e he
    by_cases hc : c = '/'
    · rw [hc, pathElements_sep] at he
      rcases List.mem_cons.1 he with h | h
      · rw [h]; exact List.not_mem_nil _
      · exact ih e h
    · obtain ⟨e0, es, h1, h2⟩ := pathElements_cons c cs hc
      rw [h2] at he
      rw [h1] at ih
      rcases List.mem_cons.1 he with h | h
      · rw [h]
        intro hmem
        rcases List.mem_cons.1 hmem with h3 | h3
        · exact hc h3.symm
        · exact ih e0 (List.mem_cons_self _ _) h3
      · exact ih e (List.mem_cons_of_mem _ h)

theorem cleanStep_real (rooted : Bool) (out : List (List Char)) (e : List Char)
    (h : IsRealElement e) : cleanStep rooted out e = e :: out := by
  unfold cleanStep
  rw [if_neg (by rintro (h1 | h1); exact h.1 h1; exact h.2.1 h1), if_neg h.2.2.1]

theorem cleanStep_empty (rooted : Bool) (out : List (List Char)) :
    cleanStep rooted out [] = out := by
  unfold cleanStep
  rw [if_pos (Or.inl rfl)]

theorem cleanStep_canon (rooted : Bool) (out : List (List Char)) (e : List Char)
    (hc : Canon rooted out) (he : '/' ∉ e) : Canon rooted (cleanStep rooted out e) := by
  by_cases h1 : e = [] ∨ e = ['.']
  · unfold cleanStep
    rw [if_pos h1]
    exact hc
  · by_cases h2 : e = ['.', '.']
    · obtain ⟨R, k, hout, hR, hk⟩ := hc
      unfold cleanStep
      rw [if_neg h1, if_pos h2]
      cases R with
      | nil =>
        rw [List.nil_append] at hout
        cases rooted with
        | true =>
          have hk0 := hk rfl
          rw [hk0] at hout
          rw [hout]
          exact ⟨[], 0, rfl, hR, fun _ => rfl⟩
        | false =>
          cases k with
          | zero =>
            rw [hout]
            exact ⟨[], 1, by rw [h2]; rfl, hR, fun h => Bool.noConfusion h⟩
          | succ k =>
            rw [hout, List.replicate_succ]
            refine ⟨[], k + 2, ?_, hR, fun h => Bool.noConfusion h⟩
            rw [h2]
            rfl
      | cons r R =>
        rw [hout, List.cons_append]
        have hr := hR r (List.mem_cons_self _ _)
        dsimp only
        rw [if_neg hr.2.2.1]
        exact ⟨R, k, rfl, fun x hx => hR x (List.mem_cons_of_mem _ hx), hk⟩
    · have hreal : IsRealElement e :=
        ⟨fun h => h1 (Or.inl h), fun h => h1 (Or.inr h), h2, he⟩
      rw [cleanStep_real rooted out e hreal]
      obtain ⟨R, k, hout, hR, hk⟩ := hc
      refine ⟨e :: R, k, by rw [hout]; rfl, ?_, hk⟩
      intro x hx
      rcases List.mem_cons.1 hx with h | h
      · rw [h]; exact hreal
      · exact hR x h

theorem foldl_cleanStep_canon (rooted : Bool) (es : List (List Char)) :
    ∀ out : List (List Char), Canon rooted out → (∀ e ∈ es, '/' ∉ e) →
      Canon rooted (es.foldl (cleanStep rooted) out) := by
  induction es with
  | nil => intro out hc _; exact hc
  | cons e es ih =>
    intro out hc hes
    rw [List.foldl_cons]
    exact ih _ (cleanStep_canon rooted out e hc (hes e (List.mem_cons_self _ _)))
      (fun x hx => hes x (List.mem_cons_of_mem _ hx))

theorem canon_nil (rooted : Bool) : Canon rooted [] :=
  ⟨[], 0, rfl, fun _ h => absurd h (List.not_mem_nil _), fun _ => rfl⟩

theorem canon_cons_real (rooted : Bool) (out : List (List Char)) (e : List Char)
    (hc : Canon rooted out) (he : IsRealElement e) : Canon rooted (e :: out) := by
  obtain ⟨R, k, hout, hR, hk⟩ := hc
  refine ⟨e :: R, k, by rw [hout]; rfl, ?_, hk⟩
  intro x hx
  rcases List.mem_cons.1 hx with h | h
  · rw [h]; exact he
  · exact hR x h

theorem canon_elements (rooted : Bool) (out : List (List Char)) (hc : Canon rooted out) :
    ∀ e ∈ out, e ≠ [] ∧ '/' ∉ e := by
  obtain ⟨R, k, hout, hR, _⟩ := hc
  intro e he
  rw [hout] at he
  rcases List.mem_append.1 he with h | h
  · exact ⟨(hR e h).1, (hR e h).2.2.2⟩
  · rw [List.eq_of_mem_replicate h]
    decide

theorem foldl_cleanStep_dotdots (k : Nat) :
    (List.replicate k ['.', '.']).foldl (cleanStep false) [] = List.replicate k ['.', '.'] := by
  induction k with
  | zero => rfl
  | succ k ih =>
    rw [List.replicate_succ', List.foldl_append, ih]
    rw [List.foldl_cons, List.foldl_nil]
    rw [← List.replicate_succ', List.replicate_succ]
    cases k with
    | zero => rfl
    | succ k =>
      rw [List.replicate_succ]
      rfl

theorem foldl_cleanStep_reals (rooted : Bool) (R : List (List Char)) :
    ∀ out : List (List Char), (∀ e ∈ R, IsRealElement e) →
      R.reverse.foldl (cleanStep rooted) out = R ++ out := by
  induction R with
  | nil => intro out _; rfl
  | cons r R ih =>
    intro out hR
    rw [List.reverse_cons, List.foldl_append, ih out (fun x hx => hR x (List.mem_cons_of_mem _ hx))]
    rw [List.foldl_cons, List.foldl_nil, cleanStep_real rooted _ r (hR r (List.mem_cons_self _ _))]
    rfl

theorem foldl_cleanStep_reverse (rooted : Bool) (out : List (List Char))
    (hc : Canon rooted out) : out.reverse.foldl (cleanStep rooted) [] = out := by
  obtain ⟨R, k, hout, hR, hk⟩ := hc
  rw [hout, List.reverse_append, List.reverse_replicate, List.foldl_append]
  cases rooted with
  | true =>
    rw [hk rfl]
    rw [List.replicate_zero, List.foldl_nil, foldl_cleanStep_reals true R [] hR]
  | false =>
    rw [foldl_cleanStep_dotdots k, foldl_cleanStep_reals false R _ hR]

theorem joinElements_cons (e : List Char) (below : List (List Char)) (h : below ≠ []) :
    joinElements (e :: below) = joinElements below ++ '/' :: e := by
  cases below with
  | nil => exact absurd rfl h
  | cons b bs =>
    rw [joinElements]
    exact fun hx => List.noConfusion hx

theorem pathElements_joinElements (out : List (List Char)) (hne : out ≠ [])
    (hs : ∀ e ∈ out, '/' ∉ e) : pathElements (joinElements out) = out.reverse := by
  induction out with
  | nil => exact absurd rfl hne
  | cons e below ih =>
    by_cases hb : below = []
    · rw [hb]
      show pathElements e = [e]
      exact pathElements_of_noSep e (hs e (List.mem_cons_self _ _))
    · rw [joinElements_cons e below hb, pathElements_append_sep,
        ih hb (fun x hx => hs x (List.mem_cons_of_mem _ hx)),
        pathElements_of_noSep e (hs e (List.mem_cons_self _ _)), List.reverse_cons]

theorem joinElements_head (out : List (List Char)) (hne : out ≠ [])
    (hs : ∀ e ∈ out, e ≠ [] ∧ '/' ∉ e) :
    ∃ c rest, joinElements out = c :: rest ∧ c ≠ '/' := by
  induction out with
  | nil => exact absurd rfl hne
  | cons e below ih =>
    by_cases hb : below = []
    · rw [hb]
      have he := hs e (List.mem_cons_self _ _)
      cases e with
      | nil => exact absurd rfl he.1
      | cons c cs =>
        refine ⟨c, cs, rfl, ?_⟩
        intro hc
        exact he.2 (by rw [hc]; exact List.mem_cons_self _ _)
    · obtain ⟨c, rest, h1, h2⟩ := ih hb (fun x hx => hs x (List.mem_cons_of_mem _ hx))
      rw [joinElements_cons e below hb, h1]
      exact ⟨c, rest ++ '/' :: e, rfl, h2⟩

theorem cleanChars_cons (c : Char) (cs : List Char) :
    cleanChars (c :: cs) =
      cleanOutput (decide (c = '/'))
        ((pathElements (c :: cs)).foldl (cleanStep (decide (c = '/'))) []) := rfl

/-- Cleaning the text of a canonical output gives that text again. -/
theorem cleanChars_cleanOutput (rooted : Bool) (out : List (List Char))
    (hc : Canon rooted out) : cleanChars (cleanOutput rooted out) = cleanOutput rooted out := by
  have hel := canon_elements rooted out hc
  cases rooted with
  | true =>
    have htxt : cleanOutput true out = '/' :: joinElements out := rfl
    rw [htxt, cleanChars_cons, pathElements_sep]
    have hd : decide ('/' = '/') = true := by decide
    rw [hd, List.foldl_cons, cleanStep_empty]
    by_cases hne : out = []
    · rw [hne]
      rfl
    · rw [pathElements_joinElements out hne (fun e he => (hel e he).2),
        foldl_cleanStep_reverse true out hc]
      rfl
  | false =>
    by_cases hne : out = []
    · rw [hne]
      rfl
    · have htxt : cleanOutput false out = joinElements out := by
        unfold cleanOutput
        simp [hne]
      obtain ⟨c, rest, h1, h2⟩ := joinElements_head out hne hel
      rw [htxt]
      have hd : decide (c = '/') = false := by simp [h2]
      have hfold : (pathElements (joinElements out)).foldl (cleanStep false) [] = out := by
        rw [pathElements_joinElements out hne (fun e he => (hel e he).2),
          foldl_cleanStep_reverse false out hc]
      rw [h1, cleanChars_cons, hd, ← h1, hfold, ← htxt]

/-- Cleaning the text of a canonical output followed by a separator gives the
text of the output. -/
theorem cleanChars_dir (rooted : Bool) (out : List (List Char)) (hne : out ≠ [])
    (hc : Canon rooted out) :
    cleanChars ((if rooted = true then '/' :: joinElements out else joinElements out) ++ ['/'])
      = cleanOutput rooted out := by
  have hel := canon_elements rooted out hc
  have hpe : pathElements (joinElements out ++ ['/']) = out.reverse ++ [[]] := by
    rw [pathElements_append_sep, pathElements_joinElements out hne (fun e he => (hel e he).2)]
    rfl
  cases rooted with
  | true =>
    rw [if_pos rfl, List.cons_append, cleanChars_cons, pathElements_sep, hpe]
    have hd : decide ('/' = '/') = true := by decide
    rw [hd, List.foldl_cons, cleanStep_empty, List.foldl_append,
      foldl_cleanStep_reverse true out hc, List.foldl_cons, List.foldl_nil, cleanStep_empty]
  | false =>
    obtain ⟨c, rest, h1, h2⟩ := joinElements_head out hne hel
    have hd : decide (c = '/') = false := by simp [h2]
    rw [if_neg (by decide), h1, List.cons_append, cleanChars_cons, hd, ← List.cons_append, ← h1,
      hpe, List.foldl_append, foldl_cleanStep_reverse false out hc, List.foldl_cons,
      List.foldl_nil, cleanStep_empty]

theorem dirPart_of_noSep (e : List Char) (h : '/' ∉ e) : dirPart e = [] := by
  cases e with
  | nil => rfl
  | cons c cs =>
    have hc : c ≠ '/' := fun hc => h (by rw [hc]; exact List.mem_cons_self _ _)
    have hcs : '/' ∉ cs := fun hx => h (List.mem_cons_of_mem _ hx)
    rw [dirPart, if_neg hcs, if_neg hc]

theorem dirPart_append (x e : List Char) (h : '/' ∉ e) :
    dirPart (x ++ '/' :: e) = x ++ ['/'] := by
  induction x with
  | nil =>
    rw [List.nil_append, dirPart, if_neg h, if_pos rfl]
    rfl
  | cons c x ih =>
    rw [List.cons_append, dirPart, if_pos (by simp), ih]
    rfl

theorem takeWhile_append_stop {α : Type} (p : α → Bool) (l r : List α) (a : α)
    (hl : ∀ x ∈ l, p x = true) (ha : p a = false) : (l ++ a :: r).takeWhile p = l := by
  induction l with
  | nil => simp [List.takeWhile, ha]
  | cons b l ih =>
    rw [List.cons_append, List.takeWhile_cons, hl b (List.mem_cons_self _ _)]
    simp only [if_true]
    rw [ih (fun x hx => hl x (List.mem_cons_of_mem _ hx))]

theorem lastElement_of_noSep (e : List Char) (h : '/' ∉ e) : lastElement e = e := by
  unfold lastElement
  have hall : ∀ x ∈ e.reverse, (fun c => c != '/') x = true := by
    intro x hx
    have hx' : x ∈ e := List.mem_reverse.1 hx
    have : x ≠ '/' := fun hxe => h (hxe ▸ hx')
    simp [this]
  rw [List.takeWhile_eq_self_iff.2 hall, List.reverse_reverse]

theorem lastElement_append (x e : List Char) (h : '/' ∉ e) :
    lastElement (x ++ '/' :: e) = e := by
  unfold lastElement
  have hall : ∀ y ∈ e.reverse, (fun c => c != '/') y = true := by
    intro y hy
    have hy' : y ∈ e := List.mem_reverse.1 hy
    have : y ≠ '/' := fun hye => h (hye ▸ hy')
    simp [this]
  have hrev : (x ++ '/' :: e).reverse = e.reverse ++ '/' :: x.reverse := by
    simp
  rw [hrev, takeWhile_append_stop _ _ _ _ hall (by decide), List.reverse_reverse]

theorem stripTrailingSeparators_of_last (x : List Char) (c : Char) (hc : c ≠ '/') :
    stripTrailingSeparators (x ++ [c]) = x ++ [c] := by
  unfold stripTrailingSeparators
  rw [List.reverse_append, List.reverse_singleton, List.singleton_append, List.dropWhile_cons]
  have : (c == '/') = false := by simp [hc]
  rw [this]
  simp

theorem cleanOutput_cons (rooted : Bool) (out : List (List Char)) (e : List Char) :
    cleanOutput rooted (e :: out) =
      if out = [] then (if rooted = true then '/' :: e else e)
      else (if rooted = true then '/' :: joinElements out else joinElements out) ++ '/' :: e := by
  by_cases hne : out = []
  · rw [if_pos hne, hne]
    cases rooted <;> rfl
  · rw [if_neg hne]
    unfold cleanOutput
    rw [joinElements_cons e out hne]
    cases rooted
    · simp
    · simp

/-- The cleaned form of `dir/e` for a non-empty `dir` and a real element `e`:
the output of cleaning `dir` with `e` appended. -/
theorem cleanChars_append_element (c : Char) (d e : List Char) (he : IsRealElement e) :
    ∃ out, Canon (decide (c = '/')) out ∧
      cleanChars (c :: d) = cleanOutput (decide (c = '/')) out ∧
      cleanChars (c :: d ++ '/' :: e) = cleanOutput (decide (c = '/')) (e :: out) := by
  refine ⟨(pathElements (c :: d)).foldl (cleanStep (decide (c = '/'))) [], ?_, ?_, ?_⟩
  · exact foldl_cleanStep_canon _ _ _ (canon_nil _) (pathElements_noSep _)
  · rfl
  · rw [List.cons_append, cleanChars_cons, ← List.cons_append, pathElements_append_sep,
      pathElements_of_noSep e he.2.2.2, List.foldl_append, List.foldl_cons, List.foldl_nil,
      cleanStep_real _ _ e he]

theorem pageFile_real (n : List Char) (hn : n.all isNameChar = true) :
    IsRealElement (n ++ ['.', 'm', 'd']) := by
  refine ⟨by simp, ?_, ?_, ?_⟩
  · intro h
    have := congrArg List.length h
    simp at this
  · intro h
    have := congrArg List.length h
    simp at this
  · intro h
    rcases List.mem_append.1 h with h1 | h1
    · have := List.all_eq_true.1 hn '/' h1
      revert this
      decide
    · revert h1
      decide

theorem Base_mk (t : List Char) (ht : t ≠ []) :
    Base (String.mk t) =
      if lastElement (stripTrailingSeparators t) = [] then "/"
      else String.mk (lastElement (stripTrailingSeparators t)) := by
  have hne : String.mk t ≠ "" := fun h => ht (congrArg String.data h)
  unfold Base
  rw [if_neg hne]

theorem pagePath_data (dir n : String) :
    (dir ++ "/" ++ n ++ ".md").data = dir.data ++ '/' :: (n.data ++ ['.', 'm', 'd']) := by
  simp only [String.data_append, List.append_assoc]
  rfl

/-- The file path of a page under a non-empty directory: it is a cleaned path,
its last element is the name followed by `.md`, and what precedes that element
is the cleaned directory. -/
theorem pagePath_clean_base_dir (dir n : String) (hd : dir ≠ "")
    (hn : n.data.all isNameChar = true) :
    Clean (Clean (dir ++ "/" ++ n ++ ".md")) = Clean (dir ++ "/" ++ n ++ ".md") ∧
    Base (Clean (dir ++ "/" ++ n ++ ".md")) = n ++ ".md" ∧
    Dir (Clean (dir ++ "/" ++ n ++ ".md")) = Clean dir := by
  have hreal := pageFile_real n.data hn
  rcases hdd : dir.data with _ | ⟨c, d⟩
  · exact absurd (String.ext hdd) hd
  · obtain ⟨out, hcan, h1, h2⟩ := cleanChars_append_element c d (n.data ++ ['.', 'm', 'd']) hreal
    have hpath : Clean (dir ++ "/" ++ n ++ ".md")
        = String.mk (cleanOutput (decide (c = '/')) ((n.data ++ ['.', 'm', 'd']) :: out)) := by
      unfold Clean
      rw [pagePath_data, hdd, h2]
    have hdir : Clean dir = String.mk (cleanOutput (decide (c = '/')) out) := by
      unfold Clean
      rw [hdd, h1]
    have hnm : (n ++ ".md") = String.mk (n.data ++ ['.', 'm', 'd']) := by
      apply String.ext
      rw [String.data_append]
    have hlast : n.data ++ ['.', 'm', 'd'] = (n.data ++ ['.', 'm']) ++ ['d'] := by simp
    rw [hpath, hdir, hnm]
    refine ⟨?_, ?_, ?_⟩
    · unfold Clean
      rw [cleanChars_cleanOutput _ _ (canon_cons_real _ out _ hcan hreal)]
    · have hne : cleanOutput (decide (c = '/')) ((n.data ++ ['.', 'm', 'd']) :: out) ≠ [] := by
        rw [cleanOutput_cons]
        split <;> split <;> simp
      rw [Base_mk _ hne]
      have hstrip : stripTrailingSeparators
          (cleanOutput (decide (c = '/')) ((n.data ++ ['.', 'm', 'd']) :: out))
          = cleanOutput (decide (c = '/')) ((n.data ++ ['.', 'm', 'd']) :: out) := by
        rw [cleanOutput_cons, hlast]
        split <;> split
        · rw [← List.cons_append]
          exact stripTrailingSeparators_of_last _ 'd' (by decide)
        · exact stripTrailingSeparators_of_last _ 'd' (by decide)
        · rw [← List.cons_append, ← List.append_assoc]
          exact stripTrailingSeparators_of_last _ 'd' (by decide)
        · rw [← List.cons_append, ← List.append_assoc]
          exact stripTrailingSeparators_of_last _ 'd' (by decide)
      have hlastEl : lastElement
          (cleanOutput (decide (c = '/')) ((n.data ++ ['.', 'm', 'd']) :: out))
          = n.data ++ ['.', 'm', 'd'] := by
        rw [cleanOutput_cons]
        split <;> split
        · exact lastElement_append [] _ hreal.2.2.2
        · exact lastElement_of_noSep _ hreal.2.2.2
        · exact lastElement_append _ _ hreal.2.2.2
        · exact lastElement_append _ _ hreal.2.2.2
      rw [hstrip, hlastEl, if_neg hreal.1]
    · unfold Dir
      congr 1
      show cleanChars (dirPart
          (cleanOutput (decide (c = '/')) ((n.data ++ ['.', 'm', 'd']) :: out))) = _
      rw [cleanOutput_cons]
      by_cases hout : out = []
      · rw [if_pos hout, hout]
        cases decide (c = '/')
        · rw [if_neg (by decide), dirPart_of_noSep _ hreal.2.2.2]
          rfl
        · rw [if_pos rfl]
          have := dirPart_append [] _ hreal.2.2.2
          rw [List.nil_append] at this
          rw [this]
          rfl
      · rw [if_neg hout, dirPart_append _ _ hreal.2.2.2]
        exact cleanChars_dir _ out hout hcan

/-! ## The path patterns on names -/

theorem validEditPath_name (P : String) (h1 : P.data ≠ [])
    (h2 : P.data.all isNameChar = true) : validEditPath ("/e/" ++ P) = some P := by
  have hd : ("/e/" ++ P).data = '/' :: 'e' :: '/' :: P.data := by
    rw [String.data_append]; rfl
  unfold validEditPath
  rw [hd]
  simp only [h1, h2, ne_eq, not_false_eq_true, and_self, if_true]

theorem validPagePath_name (P : String) (h2 : P.data.all isNameChar = true) :
    validPagePath ("/" ++ P) = some P := by
  have hd : ("/" ++ P).data = '/' :: P.data := by
    rw [String.data_append]; rfl
  unfold validPagePath
  rw [hd]
  simp only [h2, if_true]

theorem validPagePath_bad (rest : String) (h : ∃ c ∈ rest.data, isNameChar c = false) :
    validPagePath ("/" ++ rest) = none := by
  have hd : ("/" ++ rest).data = '/' :: rest.data := by
    rw [String.data_append]; rfl
  obtain ⟨c, hc, hbad⟩ := h
  have hall : ¬ (rest.data.all isNameChar = true) := by
    intro hall
    rw [List.all_eq_true] at hall
    rw [hall c hc] at hbad
    exact Bool.noConfusion hbad
  unfold validPagePath
  rw [hd]
  simp [hall]

theorem validEditPath_bad (rest : String) (h : ∃ c ∈ rest.data, isNameChar c = false) :
    validEditPath ("/e/" ++ rest) = none := by
  have hd : ("/e/" ++ rest).data = '/' :: 'e' :: '/' :: rest.data := by
    rw [String.data_append]; rfl
  obtain ⟨c, hc, hbad⟩ := h
  have hall : ¬ (rest.data.all isNameChar = true) := by
    intro hall
    rw [List.all_eq_true] at hall
    rw [hall c hc] at hbad
    exact Bool.noConfusion hbad
  unfold validEditPath
  rw [hd]
  simp [hall]

/-! ## The branches of the handlers -/

theorem editPage_invalid (lib : Lib) (wiki : Wiki) (r : Request) (s : Store)
    (hpath : validEditPath r.Path = none) :
    wiki.editPage lib r s = ⟨Response.redirect "/" StatusPermanentRedirect, s, []⟩ := by
  unfold Wiki.editPage
  simp [hpath]

theorem showPage_invalid (lib : Lib) (wiki : Wiki) (r : Request) (s : Store)
    (hpath : validPagePath r.Path = none) :
    wiki.showPage lib r s = ⟨Response.redirect "/" StatusPermanentRedirect, s, []⟩ := by
  unfold Wiki.showPage
  simp [hpath]

theorem editPage_not_editable (lib : Lib) (wiki : Wiki) (r : Request) (s : Store) (name : String)
    (hed : wiki.Editable = false) (hpath : validEditPath r.Path = some name) :
    wiki.editPage lib r s = ⟨Response.redirect ("/" ++ name) StatusFound, s, []⟩ := by
  unfold Wiki.editPage
  simp [hpath, hed]

theorem editPage_form_error (lib : Lib) (wiki : Wiki) (r : Request) (s : Store) (name : String)
    (hed : wiki.Editable = true) (hpath : validEditPath r.Path = some name)
    (hpost : r.Method = MethodPost) (hform : r.Form = none) :
    wiki.editPage lib r s = ⟨Response.error HTTPTextInternalServerError 500, s, []⟩ := by
  unfold Wiki.editPage
  simp [hpath, hed, hpost, hform]

theorem editPage_rejected (lib : Lib) (wiki : Wiki) (r : Request) (s : Store)
    (name : String) (form : List (String × String))
    (hed : wiki.Editable = true) (hpath : validEditPath r.Path = some name)
    (hpost : r.Method = MethodPost) (hform : r.Form = some form)
    (hpass : lib.CompareHashAndPassword wiki.PassHash (formValue form "pass") = false) :
    wiki.editPage lib r s =
      ⟨Response.page htmlContentType
        { WikiName := wiki.Name, WikiEditable := true, PageName := name,
          Body := formValue form "body", EditPage := true }, s,
        [Call.compareHashAndPassword wiki.PassHash (formValue form "pass")]⟩ := by
  unfold Wiki.editPage
  simp [hed, hpath, hpost, hform, hpass]

theorem editPage_delete (lib : Lib) (wiki : Wiki) (r : Request) (s : Store)
    (name : String) (form : List (String × String))
    (hed : wiki.Editable = true) (hpath : validEditPath r.Path = some name)
    (hpost : r.Method = MethodPost) (hform : r.Form = some form)
    (hpass : lib.CompareHashAndPassword wiki.PassHash (formValue form "pass") = true)
    (hbody : formValue form "body" = "") :
    wiki.editPage lib r s =
      ⟨(if (Remove s (wiki.getPageFilePath name)).2 = none
          then Response.redirect "/" StatusPermanentRedirect
          else Response.error HTTPTextInternalServerError 500),
        (Remove s (wiki.getPageFilePath name)).1,
        [Call.compareHashAndPassword wiki.PassHash (formValue form "pass"),
          Call.remove (wiki.getPageFilePath name)]⟩ := by
  unfold Wiki.editPage
  simp only [hed, hpath, hpost, hform, hpass, hbody]
  rcases hrm : Remove s (wiki.getPageFilePath name) with ⟨s', _ | e⟩ <;> simp

theorem editPage_write (lib : Lib) (wiki : Wiki) (r : Request) (s : Store)
    (name : String) (form : List (String × String))
    (hed : wiki.Editable = true) (hpath : validEditPath r.Path = some name)
    (hpost : r.Method = MethodPost) (hform : r.Form = some form)
    (hpass : lib.CompareHashAndPassword wiki.PassHash (formValue form "pass") = true)
    (hbody : formValue form "body" ≠ "") :
    wiki.editPage lib r s =
      ⟨(if (WriteFile s (wiki.getPageFilePath name) (formValue form "body")).2 = none
          then Response.redirect ("/" ++ name) StatusFound
          else Response.error HTTPTextInternalServerError 500),
        (WriteFile s (wiki.getPageFilePath name) (formValue form "body")).1,
        [Call.compareHashAndPassword wiki.PassHash (formValue form "pass"),
          Call.writeFile (wiki.getPageFilePath name) (formValue form "body")]⟩ := by
  unfold Wiki.editPage
  simp only [hed, hpath, hpost, hform, hpass, hbody]
  rcases hwr : WriteFile s (wiki.getPageFilePath name) (formValue form "body")
    with ⟨s', _ | e⟩ <;> simp

theorem editPage_get (lib : Lib) (wiki : Wiki) (r : Request) (s : Store) (name : String)
    (hed : wiki.Editable = true) (hpath : validEditPath r.Path = some name)
    (hm : r.Method = MethodGet) :
    wiki.editPage lib r s =
      ⟨(if (ReadFile s (wiki.getPageFilePath name)).2 = some IOError.other
          then Response.error HTTPTextInternalServerError 500
          else Response.page htmlContentType
            { WikiName := wiki.Name, WikiEditable := true, PageName := name,
              Body := (ReadFile s (wiki.getPageFilePath name)).1, EditPage := true }),
        s, [Call.readFile (wiki.getPageFilePath name)]⟩ := by
  have hne : MethodGet ≠ MethodPost := by decide
  unfold Wiki.editPage
  simp only [hed, hpath, hm, hne]
  rcases hrd : ReadFile s (wiki.getPageFilePath name) with ⟨c, _ | _ | _⟩ <;> simp

theorem editPage_other (lib : Lib) (wiki : Wiki) (r : Request) (s : Store) (name : String)
    (hed : wiki.Editable = true) (hpath : validEditPath r.Path = some name)
    (hpost : r.Method ≠ MethodPost) (hget : r.Method ≠ MethodGet) :
    wiki.editPage lib r s = ⟨Response.empty, s, []⟩ := by
  unfold Wiki.editPage
  simp [hed, hpath, hpost, hget]

theorem showPage_valid (lib : Lib) (wiki : Wiki) (r : Request) (s : Store) (m : String)
    (hpath : validPagePath r.Path = some m) :
    wiki.showPage lib r s =
      (if Stat s (wiki.getPageFilePath (if m = "" then "home" else m)) = some IOError.notExist then
        ⟨Response.redirect ("/e/" ++ (if m = "" then "home" else m)) StatusFound, s,
          [Call.stat (wiki.getPageFilePath (if m = "" then "home" else m))]⟩
      else
        match ReadFile s (wiki.getPageFilePath (if m = "" then "home" else m)) with
        | (_, some _) =>
          ⟨Response.error HTTPTextInternalServerError 500, s,
            [Call.stat (wiki.getPageFilePath (if m = "" then "home" else m)),
              Call.readFile (wiki.getPageFilePath (if m = "" then "home" else m))]⟩
        | (content, none) =>
          match lib.Convert content with
          | none =>
            ⟨Response.error HTTPTextInternalServerError 500, s,
              [Call.stat (wiki.getPageFilePath (if m = "" then "home" else m)),
                Call.readFile (wiki.getPageFilePath (if m = "" then "home" else m)),
                Call.convert content]⟩
          | some html =>
            ⟨Response.page htmlContentType
              { WikiName := wiki.Name, WikiEditable := wiki.Editable,
                PageName := (if m = "" then "home" else m), Body := html, EditPage := false }, s,
              [Call.stat (wiki.getPageFilePath (if m = "" then "home" else m)),
                Call.readFile (wiki.getPageFilePath (if m = "" then "home" else m)),
                Call.convert content]⟩) := by
  unfold Wiki.showPage
  simp only [hpath]

theorem showPage_store (lib : Lib) (wiki : Wiki) (r : Request) (s : Store) :
    (wiki.showPage lib r s).store = s := by
  rcases hp : validPagePath r.Path with _ | m
  · rw [showPage_invalid lib wiki r s hp]
  · rw [showPage_valid lib wiki r s m hp]
    generalize (if m = "" then "home" else m) = page
    by_cases hst : Stat s (wiki.getPageFilePath page) = some IOError.notExist
    · rw [if_pos hst]
    · rw [if_neg hst]
      rcases ReadFile s (wiki.getPageFilePath page) with ⟨c, _ | e⟩
      · dsimp only
        rcases lib.Convert c with _ | html <;> rfl
      · rfl

theorem ReadFile_error_content (s : Store) (file : String) (e : IOError)
    (h : (ReadFile s file).2 = some e) : (ReadFile s file).1 = "" := by
  unfold ReadFile at h ⊢
  by_cases hp : (s file).pathErr = true
  · simp [hp]
  · rcases hc : (s file).content with _ | c
    · simp [hp]
    · by_cases hr : (s file).readErr = true
      · simp [hp, hr]
      · simp [hp, hc, hr] at h

theorem Remove_absent (s : Store) (file : String) (h : (s file).content = none) :
    (Remove s file).2 ≠ none := by
  unfold Remove
  by_cases hp : (s file).pathErr = true
  · simp [hp]
  · simp [hp, h]

theorem Stat_notExist_iff (s : Store) (file : String) :
    Stat s file = some IOError.notExist ↔ (s file).pathErr = false ∧ (s file).content = none := by
  unfold Stat
  by_cases hp : (s file).pathErr = true
  · simp [hp]
  · rcases hc : (s file).content with _ | c <;> simp [hp]

theorem ReadFile_of_notExist (s : Store) (file : String)
    (h : Stat s file = some IOError.notExist) :
    ReadFile s file = ("", some IOError.notExist) := by
  obtain ⟨hp, hc⟩ := (Stat_notExist_iff s file).1 h
  unfold ReadFile
  simp [hp, hc]

theorem WriteFile_ok (s : Store) (file data : String) (h : (WriteFile s file data).2 = none) :
    (s file).pathErr = false ∧ (s file).writeErr = false ∧
    (WriteFile s file data).1 = Function.update s file { s file with content := some data } := by
  unfold WriteFile at h ⊢
  by_cases hf : (s file).pathErr = true ∨ (s file).writeErr = true
  · simp [hf] at h
  · rw [if_neg hf]
    simp only [not_or, Bool.not_eq_true] at hf
    exact ⟨hf.1, hf.2, rfl⟩

theorem Remove_ok (s : Store) (file : String) (h : (Remove s file).2 = none) :
    (s file).pathErr = false ∧ (s file).content ≠ none ∧
    (Remove s file).1 = Function.update s file { s file with content := none } := by
  unfold Remove at h ⊢
  by_cases hp : (s file).pathErr = true
  · simp [hp] at h
  · rcases hc : (s file).content with _ | c
    · simp [hp, hc] at h
    · by_cases hr : (s file).removeErr = true
      · simp [hp, hc, hr] at h
      · simp [hp, hr]

theorem name_ne_empty (P : String) (h : P.data ≠ []) : P ≠ "" := by
  intro hP
  rw [hP] at h
  exact h rfl

theorem pageName_data (m : String) (h : m.data.all isNameChar = true) :
    (if m = "" then "home" else m).data ≠ [] ∧
    (if m = "" then "home" else m).data.all isNameChar = true := by
  by_cases hm : m = ""
  · rw [if_pos hm]
    decide
  · rw [if_neg hm]
    refine ⟨?_, h⟩
    intro hd
    exact hm (String.ext hd)

/-! ## The claims -/

/-- C1. On an editable wiki, a POST to a path matching the edit pattern whose
parsed `pass` field `bcrypt.CompareHashAndPassword` rejects leaves the store as
it was and makes no file-system call; the response has status 200 and renders
the page view in edit mode with the name of the path and, as its body, the
submitted `body` field unchanged. -/
theorem editPage_wrong_password_keeps_store (lib : Lib) (wiki : Wiki) (r : Request) (s : Store)
    (name : String) (form : List (String × String))
    (hed : wiki.Editable = true) (hpath : validEditPath r.Path = some name)
    (hpost : r.Method = MethodPost) (hform : r.Form = some form)
    (hpass : lib.CompareHashAndPassword wiki.PassHash (formValue form "pass") = false) :
    (wiki.editPage lib r s).store = s ∧
    (∀ c ∈ (wiki.editPage lib r s).calls, c.isStoreCall = false) ∧
    (wiki.editPage lib r s).resp.status = 200 ∧
    (wiki.editPage lib r s).resp.view =
      some { WikiName := wiki.Name, WikiEditable := true, PageName := name,
             Body := formValue form "body", EditPage := true } := by
  rw [editPage_rejected lib wiki r s name form hed hpath hpost hform hpass]
  refine ⟨rfl, ?_, rfl, rfl⟩
  intro c hc
  simp only [List.mem_singleton] at hc
  rw [hc]
  rfl

/-- C1, at a concrete request: the wrong password `guess` on the page `Foo`,
whose file holds `old`. -/
theorem editPage_wrong_password_keeps_store_witness :
    (demoWiki.editPage demoLib (postFoo "typed text" "guess")
        (fooStore ⟨some "old", false, false, false, false⟩)).store
      = fooStore ⟨some "old", false, false, false, false⟩ ∧
    (∀ c ∈ (demoWiki.editPage demoLib (postFoo "typed text" "guess")
        (fooStore ⟨some "old", false, false, false, false⟩)).calls, c.isStoreCall = false) ∧
    (demoWiki.editPage demoLib (postFoo "typed text" "guess")
        (fooStore ⟨some "old", false, false, false, false⟩)).resp.status = 200 ∧
    (demoWiki.editPage demoLib (postFoo "typed text" "guess")
        (fooStore ⟨some "old", false, false, false, false⟩)).resp.view =
      some { WikiName := "wiki", WikiEditable := true, PageName := "Foo",
             Body := "typed text", EditPage := true } :=
  editPage_wrong_password_keeps_store demoLib demoWiki (postFoo "typed text" "guess")
    (fooStore ⟨some "old", false, false, false, false⟩) "Foo"
    [("body", "typed text"), ("pass", "guess")] (by decide) (by decide) (by decide) rfl (by decide)

/-- C3. `showPage` never changes the store. If `editPage` changes it, then the
wiki is editable, the path matches the edit pattern, the method is POST, the
form was parsed and `bcrypt.CompareHashAndPassword` accepted its `pass` field;
whenever one of these fails the store is unchanged. -/
theorem store_changes_only_on_accepted_post (lib : Lib) (wiki : Wiki) (r : Request) (s : Store) :
    (wiki.showPage lib r s).store = s ∧
    ((wiki.editPage lib r s).store ≠ s →
      wiki.Editable = true ∧ (∃ name, validEditPath r.Path = some name) ∧
      r.Method = MethodPost ∧
      ∃ form, r.Form = some form ∧
        lib.CompareHashAndPassword wiki.PassHash (formValue form "pass") = true) ∧
    (¬ (wiki.Editable = true ∧ (∃ name, validEditPath r.Path = some name) ∧
        r.Method = MethodPost ∧
        ∃ form, r.Form = some form ∧
          lib.CompareHashAndPassword wiki.PassHash (formValue form "pass") = true) →
      (wiki.editPage lib r s).store = s) := by
  have key : (wiki.editPage lib r s).store ≠ s →
      wiki.Editable = true ∧ (∃ name, validEditPath r.Path = some name) ∧
      r.Method = MethodPost ∧
      ∃ form, r.Form = some form ∧
        lib.CompareHashAndPassword wiki.PassHash (formValue form "pass") = true := by
    intro hne
    rcases hp : validEditPath r.Path with _ | name
    · exact absurd (by rw [editPage_invalid lib wiki r s hp]) hne
    · cases hed : wiki.Editable
      · exact absurd (by rw [editPage_not_editable lib wiki r s name hed hp]) hne
      · by_cases hm : r.Method = MethodPost
        · rcases hf : r.Form with _ | form
          · exact absurd (by rw [editPage_form_error lib wiki r s name hed hp hm hf]) hne
          · cases hc : lib.CompareHashAndPassword wiki.PassHash (formValue form "pass")
            · exact absurd (by rw [editPage_rejected lib wiki r s name form hed hp hm hf hc]) hne
            · exact ⟨rfl, ⟨name, rfl⟩, hm, form, rfl, hc⟩
        · by_cases hg : r.Method = MethodGet
          · exact absurd (by rw [editPage_get lib wiki r s name hed hp hg]) hne
          · exact absurd (by rw [editPage_other lib wiki r s name hed hp hm hg]) hne
  refine ⟨showPage_store lib wiki r s, key, ?_⟩
  intro hnot
  by_contra hne
  exact hnot (key hne)

/-- C3, at a concrete request: the accepted POST of `hi` to `Foo` changes the
empty store, and the four conditions hold for it. -/
theorem store_changes_only_on_accepted_post_witness :
    demoWiki.Editable = true ∧ (∃ name, validEditPath (postFoo "hi" "secret").Path = some name) ∧
    (postFoo "hi" "secret").Method = MethodPost ∧
    ∃ form, (postFoo "hi" "secret").Form = some form ∧
      demoLib.CompareHashAndPassword demoWiki.PassHash (formValue form "pass") = true :=
  (store_changes_only_on_accepted_post demoLib demoWiki (postFoo "hi" "secret") emptyStore).2.1
    (fun h => by
      have h2 := congrArg (fun st : Store => (st "pages/Foo.md").content) h
      revert h2
      decide)

/-- C4. When the part of the path after the leading `/` (view flow) or after
`/e/` (edit flow) holds a character outside `[a-zA-Z0-9_-]`, the pattern does
not match, and the handler answers with the permanent redirect (308) to `/`,
makes no call at all (no stat, read, write or delete) and leaves the store as it
was; the outcome is the same for every wiki, so no storage directory enters it. -/
theorem invalid_name_redirects_without_store_access (lib : Lib) (wiki : Wiki) (rest method : String)
    (form : Option (List (String × String))) (s : Store)
    (hbad : ∃ c ∈ rest.data, isNameChar c = false) :
    validPagePath ("/" ++ rest) = none ∧
    validEditPath ("/e/" ++ rest) = none ∧
    wiki.showPage lib ⟨"/" ++ rest, method, form⟩ s = ⟨Response.redirect "/" 308, s, []⟩ ∧
    wiki.editPage lib ⟨"/e/" ++ rest, method, form⟩ s = ⟨Response.redirect "/" 308, s, []⟩ :=
  ⟨validPagePath_bad rest hbad, validEditPath_bad rest hbad,
    showPage_invalid lib wiki ⟨"/" ++ rest, method, form⟩ s (validPagePath_bad rest hbad),
    editPage_invalid lib wiki ⟨"/e/" ++ rest, method, form⟩ s (validEditPath_bad rest hbad)⟩

/-- C4, at the name `../../etc/passwd`. -/
theorem invalid_name_redirects_without_store_access_witness :
    validPagePath ("/" ++ "../../etc/passwd") = none ∧
    validEditPath ("/e/" ++ "../../etc/passwd") = none ∧
    demoWiki.showPage demoLib ⟨"/" ++ "../../etc/passwd", "GET", none⟩ emptyStore
      = ⟨Response.redirect "/" 308, emptyStore, []⟩ ∧
    demoWiki.editPage demoLib ⟨"/e/" ++ "../../etc/passwd", "GET", none⟩ emptyStore
      = ⟨Response.redirect "/" 308, emptyStore, []⟩ :=
  invalid_name_redirects_without_store_access demoLib demoWiki "../../etc/passwd" "GET" none
    emptyStore ⟨'.', by decide, by decide⟩

/-- C6. On a wiki whose `Editable` flag is false, as `main` sets it when the
password is empty, a request to a path matching the edit pattern `/e/<name>`
is answered, whatever its method and form, with status 302 and `Location`
`/<name>`; no call is made (no password comparison, no file operation) and the
store is unchanged. -/
theorem editPage_disabled_redirects_to_view (lib : Lib) (wiki : Wiki) (r : Request) (s : Store)
    (name : String) (hed : wiki.Editable = false) (hpath : validEditPath r.Path = some name) :
    (∀ n d h, (newWiki n "" d h).Editable = false) ∧
    (wiki.editPage lib r s).resp.status = 302 ∧
    (wiki.editPage lib r s).resp.location = some ("/" ++ name) ∧
    (wiki.editPage lib r s).calls = [] ∧
    (wiki.editPage lib r s).store = s := by
  rw [editPage_not_editable lib wiki r s name hed hpath]
  exact ⟨fun _ _ _ => rfl, rfl, rfl, rfl, rfl⟩

/-- C6, at a POST carrying the hash's own password on the wiki without password. -/
theorem editPage_disabled_redirects_to_view_witness :
    (∀ n d h, (newWiki n "" d h).Editable = false) ∧
    (readOnlyWiki.editPage demoLib (postFoo "hi" "") emptyStore).resp.status = 302 ∧
    (readOnlyWiki.editPage demoLib (postFoo "hi" "") emptyStore).resp.location
      = some ("/" ++ "Foo") ∧
    (readOnlyWiki.editPage demoLib (postFoo "hi" "") emptyStore).calls = [] ∧
    (readOnlyWiki.editPage demoLib (postFoo "hi" "") emptyStore).store = emptyStore :=
  editPage_disabled_redirects_to_view demoLib readOnlyWiki (postFoo "hi" "") emptyStore "Foo"
    (by decide) (by decide)

/-- C8. The claim fails on the code. On the editable wiki, with the file of
`Foo` holding `old`, the GET of `/e/Foo` reads the file and renders the edit
form with that content, while a PUT of the same path reaches the empty
`default` clause of the `switch`: no file is read and nothing is written to the
response. The two outcomes differ. -/
theorem editPage_other_method_not_as_get :
    demoWiki.Editable = true ∧
    validEditPath "/e/Foo" = some "Foo" ∧
    (demoWiki.editPage demoLib ⟨"/e/Foo", "GET", none⟩
        (fooStore ⟨some "old", false, false, false, false⟩)).resp
      = Response.page htmlContentType
          { WikiName := "wiki", WikiEditable := true, PageName := "Foo",
            Body := "old", EditPage := true } ∧
    (demoWiki.editPage demoLib ⟨"/e/Foo", "GET", none⟩
        (fooStore ⟨some "old", false, false, false, false⟩)).calls
      = [Call.readFile "pages/Foo.md"] ∧
    (demoWiki.editPage demoLib ⟨"/e/Foo", "PUT", none⟩
        (fooStore ⟨some "old", false, false, false, false⟩)).resp = Response.empty ∧
    (demoWiki.editPage demoLib ⟨"/e/Foo", "PUT", none⟩
        (fooStore ⟨some "old", false, false, false, false⟩)).calls = [] ∧
    (demoWiki.editPage demoLib ⟨"/e/Foo", "PUT", none⟩
        (fooStore ⟨some "old", false, false, false, false⟩)).resp
      ≠ (demoWiki.editPage demoLib ⟨"/e/Foo", "GET", none⟩
        (fooStore ⟨some "old", false, false, false, false⟩)).resp := by
  decide

/-- C10. A file operation that fails makes the handler answer with
`http.Error` of the fixed text `500 internal server error` and status 500,
whatever the file and the error `e`: a failed read in the view flow, a read in
the edit flow (method GET) that fails with another error than
`os.ErrNotExist`, a failed removal (that of a missing file included) and a
failed write. Among the failed operations only the read of the edit flow that
fails with `os.ErrNotExist` is answered with the edit form, whose body is then
empty. -/
theorem store_failure_answers_500 (lib : Lib) (wiki : Wiki) (r : Request) (s : Store)
    (e : IOError) :
    (∀ m, validPagePath r.Path = some m →
      Stat s (wiki.getPageFilePath (if m = "" then "home" else m)) ≠ some IOError.notExist →
      (ReadFile s (wiki.getPageFilePath (if m = "" then "home" else m))).2 = some e →
      (wiki.showPage lib r s).resp = Response.error "500 internal server error" 500) ∧
    (∀ name, wiki.Editable = true → validEditPath r.Path = some name →
      (r.Method = MethodGet → (ReadFile s (wiki.getPageFilePath name)).2 = some e →
        (e ≠ IOError.notExist →
          (wiki.editPage lib r s).resp = Response.error "500 internal server error" 500) ∧
        (e = IOError.notExist →
          (wiki.editPage lib r s).resp = Response.page htmlContentType
            { WikiName := wiki.Name, WikiEditable := true, PageName := name,
              Body := "", EditPage := true })) ∧
      (∀ form, r.Method = MethodPost → r.Form = some form →
        lib.CompareHashAndPassword wiki.PassHash (formValue form "pass") = true →
        (formValue form "body" = "" → (Remove s (wiki.getPageFilePath name)).2 = some e →
          (wiki.editPage lib r s).resp = Response.error "500 internal server error" 500) ∧
        (formValue form "body" = "" → (s (wiki.getPageFilePath name)).content = none →
          (wiki.editPage lib r s).resp = Response.error "500 internal server error" 500) ∧
        (formValue form "body" ≠ "" →
          (WriteFile s (wiki.getPageFilePath name) (formValue form "body")).2 = some e →
          (wiki.editPage lib r s).resp = Response.error "500 internal server error" 500))) := by
  refine ⟨?_, ?_⟩
  · intro m hp hst hrd
    rw [showPage_valid lib wiki r s m hp, if_neg hst]
    rcases hrf : ReadFile s (wiki.getPageFilePath (if m = "" then "home" else m)) with ⟨c, _ | e2⟩
    · rw [hrf] at hrd
      exact Option.noConfusion hrd
    · rfl
  · intro name hed hpath
    refine ⟨?_, ?_⟩
    · intro hm hrd
      rw [editPage_get lib wiki r s name hed hpath hm]
      refine ⟨?_, ?_⟩
      · intro hne
        cases e
        · exact absurd rfl hne
        · dsimp only
          rw [if_pos hrd]
          rfl
      · intro he
        have hc := ReadFile_error_content s (wiki.getPageFilePath name) e hrd
        dsimp only
        rw [hrd, hc, he]
        rfl
    · intro form hm hf hc
      refine ⟨?_, ?_, ?_⟩
      · intro hb hrm
        rw [editPage_delete lib wiki r s name form hed hpath hm hf hc hb]
        dsimp only
        rw [hrm]
        rfl
      · intro hb hcont
        rw [editPage_delete lib wiki r s name form hed hpath hm hf hc hb]
        dsimp only
        rw [if_neg (Remove_absent s (wiki.getPageFilePath name) hcont)]
        rfl
      · intro hb hwr
        rw [editPage_write lib wiki r s name form hed hpath hm hf hc hb]
        dsimp only
        rw [hwr]
        rfl

/-- C7, as stated, fails on a wiki that is not editable: the page `Foo` has no
file, the view of `/Foo` redirects to `/e/Foo`, and the GET of `/e/Foo`
redirects back to `/Foo` with status 302 instead of rendering an empty form.
It also fails, on any wiki, when there is no file and `os.Stat` fails with
another error than `os.ErrNotExist` (a name that is too long): the view is then
answered with the 500 error. -/
theorem missing_page_empty_form_counterexample :
    validPagePath "/Foo" = some "Foo" ∧
    Stat emptyStore (readOnlyWiki.getPageFilePath "Foo") = some IOError.notExist ∧
    (readOnlyWiki.showPage demoLib ⟨"/Foo", "GET", none⟩ emptyStore).resp
      = Response.redirect "/e/Foo" 302 ∧
    (readOnlyWiki.editPage demoLib ⟨"/e/Foo", "GET", none⟩ emptyStore).resp
      = Response.redirect "/Foo" 302 ∧
    (readOnlyWiki.editPage demoLib ⟨"/e/Foo", "GET", none⟩ emptyStore).resp.status ≠ 200 ∧
    (fooStore ⟨none, true, false, false, false⟩ (demoWiki.getPageFilePath "Foo")).content
      = none ∧
    (demoWiki.showPage demoLib ⟨"/Foo", "GET", none⟩
        (fooStore ⟨none, true, false, false, false⟩)).resp
      = Response.error "500 internal server error" 500 := by
  decide

/-- C7, amended. Let `m` be a name matching `[a-zA-Z0-9_-]*` and `page` be `m`,
or `home` when `m` is empty, and let `os.Stat` report that the file of `page`
does not exist. Then on every wiki the view of `/m` answers 302 with `Location`
`/e/page`. The GET of `/e/page` on the same store answers 200 with the edit
form of `page` and an empty body when the wiki is editable, and 302 with
`Location` `/page` when it is not. -/
theorem missing_page_redirects_to_empty_form (lib : Lib) (wiki : Wiki) (s : Store)
    (m method : String) (form form' : Option (List (String × String)))
    (hm : m.data.all isNameChar = true)
    (hmiss : Stat s (wiki.getPageFilePath (if m = "" then "home" else m))
      = some IOError.notExist) :
    wiki.showPage lib ⟨"/" ++ m, method, form⟩ s
      = ⟨Response.redirect ("/e/" ++ (if m = "" then "home" else m)) 302, s,
          [Call.stat (wiki.getPageFilePath (if m = "" then "home" else m))]⟩ ∧
    (wiki.Editable = true →
      wiki.editPage lib ⟨"/e/" ++ (if m = "" then "home" else m), MethodGet, form'⟩ s
        = ⟨Response.page htmlContentType
            { WikiName := wiki.Name, WikiEditable := true,
              PageName := (if m = "" then "home" else m), Body := "", EditPage := true }, s,
            [Call.readFile (wiki.getPageFilePath (if m = "" then "home" else m))]⟩) ∧
    (wiki.Editable = false →
      wiki.editPage lib ⟨"/e/" ++ (if m = "" then "home" else m), MethodGet, form'⟩ s
        = ⟨Response.redirect ("/" ++ (if m = "" then "home" else m)) 302, s, []⟩) := by
  obtain ⟨hp1, hp2⟩ := pageName_data m hm
  have hedit := validEditPath_name (if m = "" then "home" else m) hp1 hp2
  refine ⟨?_, ?_, ?_⟩
  · rw [showPage_valid lib wiki ⟨"/" ++ m, method, form⟩ s m (validPagePath_name m hm),
      if_pos hmiss]
    rfl
  · intro hed
    rw [editPage_get lib wiki _ s _ hed hedit rfl, ReadFile_of_notExist s _ hmiss]
    rfl
  · intro hed
    rw [editPage_not_editable lib wiki _ s _ hed hedit]
    rfl

/-- C7 amended, at the root path of an empty store: `/` stands for `home`. -/
theorem missing_page_redirects_to_empty_form_witness :
    demoWiki.showPage demoLib ⟨"/" ++ "", "GET", none⟩ emptyStore
      = ⟨Response.redirect ("/e/" ++ (if "" = "" then "home" else "")) 302, emptyStore,
          [Call.stat (demoWiki.getPageFilePath (if "" = "" then "home" else ""))]⟩ ∧
    (demoWiki.Editable = true →
      demoWiki.editPage demoLib ⟨"/e/" ++ (if "" = "" then "home" else ""), MethodGet, none⟩
          emptyStore
        = ⟨Response.page htmlContentType
            { WikiName := demoWiki.Name, WikiEditable := true,
              PageName := (if "" = "" then "home" else ""), Body := "", EditPage := true },
            emptyStore,
            [Call.readFile (demoWiki.getPageFilePath (if "" = "" then "home" else ""))]⟩) ∧
    (demoWiki.Editable = false →
      demoWiki.editPage demoLib ⟨"/e/" ++ (if "" = "" then "home" else ""), MethodGet, none⟩
          emptyStore
        = ⟨Response.redirect ("/" ++ (if "" = "" then "home" else "")) 302, emptyStore, []⟩) :=
  missing_page_redirects_to_empty_form demoLib demoWiki emptyStore "" "GET" none none
    (by decide) (by decide)

/-- C9, as stated, fails on a store in which the file of `Foo` exists and
cannot be removed: the accepted POST with an empty body is answered with the
500 error instead of the redirect, and the file stays. -/
theorem delete_page_counterexample :
    validEditPath "/e/Foo" = some "Foo" ∧
    (fooStore ⟨some "old", false, false, false, true⟩ (demoWiki.getPageFilePath "Foo")).content
      = some "old" ∧
    demoLib.CompareHashAndPassword demoWiki.PassHash "secret" = true ∧
    (demoWiki.editPage demoLib (postFoo "" "secret")
        (fooStore ⟨some "old", false, false, false, true⟩)).resp
      = Response.error "500 internal server error" 500 ∧
    ((demoWiki.editPage demoLib (postFoo "" "secret")
        (fooStore ⟨some "old", false, false, false, true⟩)).store
        (demoWiki.getPageFilePath "Foo")).content = some "old" := by
  decide

/-- C9, amended. On an editable wiki, for a page name `P` matching
`[a-zA-Z0-9_-]+` and a password that `bcrypt.CompareHashAndPassword` accepts,
if `os.Remove` of the file of `P` succeeds (so the file exists), then the POST
of `/e/P` with an empty `body` answers with the permanent redirect (308) to `/`
and leaves a store without the file of `P` and with every other file as it
was; the view of `/P` on that store answers 302 with `Location` `/e/P`. -/
theorem delete_page_then_view (lib : Lib) (wiki : Wiki) (s : Store) (P method : String)
    (form : List (String × String)) (form' : Option (List (String × String)))
    (hed : wiki.Editable = true) (hP1 : P.data ≠ []) (hP2 : P.data.all isNameChar = true)
    (hbody : formValue form "body" = "")
    (hpass : lib.CompareHashAndPassword wiki.PassHash (formValue form "pass") = true)
    (hrm : (Remove s (wiki.getPageFilePath P)).2 = none) :
    (s (wiki.getPageFilePath P)).content ≠ none ∧
    (wiki.editPage lib ⟨"/e/" ++ P, MethodPost, some form⟩ s).resp
      = Response.redirect "/" 308 ∧
    ((wiki.editPage lib ⟨"/e/" ++ P, MethodPost, some form⟩ s).store
      (wiki.getPageFilePath P)).content = none ∧
    (∀ file, file ≠ wiki.getPageFilePath P →
      (wiki.editPage lib ⟨"/e/" ++ P, MethodPost, some form⟩ s).store file = s file) ∧
    (wiki.showPage lib ⟨"/" ++ P, method, form'⟩
        (wiki.editPage lib ⟨"/e/" ++ P, MethodPost, some form⟩ s).store).resp
      = Response.redirect ("/e/" ++ P) 302 := by
  obtain ⟨hpe, hex, hst⟩ := Remove_ok s (wiki.getPageFilePath P) hrm
  rw [editPage_delete lib wiki ⟨"/e/" ++ P, MethodPost, some form⟩ s P form hed
    (validEditPath_name P hP1 hP2) rfl rfl hpass hbody]
  dsimp only
  rw [if_pos hrm, hst]
  refine ⟨hex, rfl, ?_, ?_, ?_⟩
  · rw [Function.update_same]
  · intro file hne
    rw [Function.update_noteq hne]
  · rw [showPage_valid lib wiki ⟨"/" ++ P, method, form'⟩ _ P (validPagePath_name P hP2),
      if_neg (name_ne_empty P hP1)]
    have hgone : Stat (Function.update s (wiki.getPageFilePath P)
        { s (wiki.getPageFilePath P) with content := none }) (wiki.getPageFilePath P)
        = some IOError.notExist := by
      rw [Stat_notExist_iff, Function.update_same]
      exact ⟨hpe, rfl⟩
    rw [if_pos hgone]
    rfl

/-- C9 amended, at the page `Foo` of a store that holds it. -/
theorem delete_page_then_view_witness :
    (fooStore ⟨some "old", false, false, false, false⟩ (demoWiki.getPageFilePath "Foo")).content
      ≠ none ∧
    (demoWiki.editPage demoLib ⟨"/e/" ++ "Foo", MethodPost, some [("pass", "secret")]⟩
        (fooStore ⟨some "old", false, false, false, false⟩)).resp
      = Response.redirect "/" 308 ∧
    ((demoWiki.editPage demoLib ⟨"/e/" ++ "Foo", MethodPost, some [("pass", "secret")]⟩
        (fooStore ⟨some "old", false, false, false, false⟩)).store
      (demoWiki.getPageFilePath "Foo")).content = none ∧
    (∀ file, file ≠ demoWiki.getPageFilePath "Foo" →
      (demoWiki.editPage demoLib ⟨"/e/" ++ "Foo", MethodPost, some [("pass", "secret")]⟩
        (fooStore ⟨some "old", false, false, false, false⟩)).store file
        = fooStore ⟨some "old", false, false, false, false⟩ file) ∧
    (demoWiki.showPage demoLib ⟨"/" ++ "Foo", "GET", none⟩
        (demoWiki.editPage demoLib ⟨"/e/" ++ "Foo", MethodPost, some [("pass", "secret")]⟩
          (fooStore ⟨some "old", false, false, false, false⟩)).store).resp
      = Response.redirect ("/e/" ++ "Foo") 302 :=
  delete_page_then_view demoLib demoWiki (fooStore ⟨some "old", false, false, false, false⟩)
    "Foo" "GET" [("pass", "secret")] none (by decide) (by decide) (by decide) (by decide)
    (by decide) (by decide)

/-- C2, as stated, fails on a store in which the file of `Foo` cannot be
written: the accepted POST of the body `hi` is answered with the 500 error
instead of the redirect to `/Foo`, and no file holds `hi` afterwards. When the
file is written but cannot be read, or when the converter returns an error, the
save is answered with the redirect and the following view with the 500 error. -/
theorem save_then_view_counterexample :
    validEditPath "/e/Foo" = some "Foo" ∧
    demoLib.CompareHashAndPassword demoWiki.PassHash "secret" = true ∧
    (demoWiki.editPage demoLib (postFoo "hi" "secret")
        (fooStore ⟨none, false, false, true, false⟩)).resp
      = Response.error "500 internal server error" 500 ∧
    ((demoWiki.editPage demoLib (postFoo "hi" "secret")
        (fooStore ⟨none, false, false, true, false⟩)).store
        (demoWiki.getPageFilePath "Foo")).content = none ∧
    (demoWiki.editPage demoLib (postFoo "hi" "secret")
        (fooStore ⟨some "old", false, true, false, false⟩)).resp
      = Response.redirect "/Foo" 302 ∧
    (demoWiki.showPage demoLib ⟨"/Foo", "GET", none⟩
        (demoWiki.editPage demoLib (postFoo "hi" "secret")
          (fooStore ⟨some "old", false, true, false, false⟩)).store).resp
      = Response.error "500 internal server error" 500 ∧
    (demoWiki.editPage brokenLib (postFoo "hi" "secret") emptyStore).resp
      = Response.redirect "/Foo" 302 ∧
    (demoWiki.showPage brokenLib ⟨"/Foo", "GET", none⟩
        (demoWiki.editPage brokenLib (postFoo "hi" "secret") emptyStore).store).resp
      = Response.error "500 internal server error" 500 := by
  decide

/-- C2, amended. On an editable wiki, for a page name `P` matching
`[a-zA-Z0-9_-]+`, a parsed form with a non-empty body `B` and a password that
`bcrypt.CompareHashAndPassword` accepts, if `os.WriteFile` of the file of `P`
succeeds, then the POST of `/e/P` answers 302 with `Location` `/P` and leaves
the file of `P` holding exactly `B`, every other file being as it was. If
moreover reading that file does not fail and the converter returns `html` for
`B`, the view of `/P` on the new store answers 200 with the page view of `P`,
not in edit mode, whose body is `html`. The same POST on the new store gives
the same response and leaves the new store as it is. -/
theorem save_then_view (lib : Lib) (wiki : Wiki) (s : Store) (P method html : String)
    (form : List (String × String)) (form' : Option (List (String × String)))
    (hed : wiki.Editable = true) (hP1 : P.data ≠ []) (hP2 : P.data.all isNameChar = true)
    (hbody : formValue form "body" ≠ "")
    (hpass : lib.CompareHashAndPassword wiki.PassHash (formValue form "pass") = true)
    (hwr : (WriteFile s (wiki.getPageFilePath P) (formValue form "body")).2 = none) :
    (wiki.editPage lib ⟨"/e/" ++ P, MethodPost, some form⟩ s).resp
      = Response.redirect ("/" ++ P) 302 ∧
    ((wiki.editPage lib ⟨"/e/" ++ P, MethodPost, some form⟩ s).store
      (wiki.getPageFilePath P)).content = some (formValue form "body") ∧
    (∀ file, file ≠ wiki.getPageFilePath P →
      (wiki.editPage lib ⟨"/e/" ++ P, MethodPost, some form⟩ s).store file = s file) ∧
    ((s (wiki.getPageFilePath P)).readErr = false →
      lib.Convert (formValue form "body") = some html →
      (wiki.showPage lib ⟨"/" ++ P, method, form'⟩
          (wiki.editPage lib ⟨"/e/" ++ P, MethodPost, some form⟩ s).store).resp
        = Response.page htmlContentType
            { WikiName := wiki.Name, WikiEditable := true, PageName := P,
              Body := html, EditPage := false }) ∧
    (wiki.editPage lib ⟨"/e/" ++ P, MethodPost, some form⟩
        (wiki.editPage lib ⟨"/e/" ++ P, MethodPost, some form⟩ s).store).resp
      = Response.redirect ("/" ++ P) 302 ∧
    (wiki.editPage lib ⟨"/e/" ++ P, MethodPost, some form⟩
        (wiki.editPage lib ⟨"/e/" ++ P, MethodPost, some form⟩ s).store).store
      = (wiki.editPage lib ⟨"/e/" ++ P, MethodPost, some form⟩ s).store := by
  obtain ⟨hpe, hwe, hst⟩ := WriteFile_ok s (wiki.getPageFilePath P) (formValue form "body") hwr
  have hedit := validEditPath_name P hP1 hP2
  have hpost : ∀ t : Store, wiki.editPage lib ⟨"/e/" ++ P, MethodPost, some form⟩ t = _ :=
    fun t => editPage_write lib wiki ⟨"/e/" ++ P, MethodPost, some form⟩ t P form hed
      hedit rfl rfl hpass hbody
  have hagain : WriteFile (Function.update s (wiki.getPageFilePath P)
      { s (wiki.getPageFilePath P) with content := some (formValue form "body") })
      (wiki.getPageFilePath P) (formValue form "body")
      = (Function.update s (wiki.getPageFilePath P)
          { s (wiki.getPageFilePath P) with content := some (formValue form "body") }, none) := by
    unfold WriteFile
    simp [Function.update_same, hpe, hwe]
  rw [hpost s]
  dsimp only
  rw [if_pos hwr, hst]
  refine ⟨rfl, ?_, ?_, ?_, ?_, ?_⟩
  · rw [Function.update_same]
  · intro file hne
    rw [Function.update_noteq hne]
  · intro hre hconv
    rw [showPage_valid lib wiki ⟨"/" ++ P, method, form'⟩ _ P (validPagePath_name P hP2),
      if_neg (name_ne_empty P hP1)]
    have hstat : Stat (Function.update s (wiki.getPageFilePath P)
        { s (wiki.getPageFilePath P) with content := some (formValue form "body") })
        (wiki.getPageFilePath P) ≠ some IOError.notExist := by
      rw [Ne, Stat_notExist_iff, Function.update_same]
      intro h
      exact Option.noConfusion h.2
    have hread : ReadFile (Function.update s (wiki.getPageFilePath P)
        { s (wiki.getPageFilePath P) with content := some (formValue form "body") })
        (wiki.getPageFilePath P) = (formValue form "body", none) := by
      unfold ReadFile
      simp [Function.update_same, hpe, hre]
    rw [if_neg hstat, hread]
    dsimp only
    rw [hconv, hed]
  · rw [hpost]
    dsimp only
    rw [hagain]
    rfl
  · rw [hpost]
    dsimp only
    rw [hagain]

/-- C2 amended, at the first save of the body `hi` to the page `Foo`. -/
theorem save_then_view_witness :
    (demoWiki.editPage demoLib ⟨"/e/" ++ "Foo", MethodPost, some [("body", "hi"), ("pass", "secret")]⟩
        emptyStore).resp = Response.redirect ("/" ++ "Foo") 302 ∧
    ((demoWiki.editPage demoLib ⟨"/e/" ++ "Foo", MethodPost, some [("body", "hi"), ("pass", "secret")]⟩
        emptyStore).store (demoWiki.getPageFilePath "Foo")).content = some "hi" ∧
    (demoWiki.showPage demoLib ⟨"/" ++ "Foo", "GET", none⟩
        (demoWiki.editPage demoLib
          ⟨"/e/" ++ "Foo", MethodPost, some [("body", "hi"), ("pass", "secret")]⟩ emptyStore).store).resp
      = Response.page htmlContentType
          { WikiName := "wiki", WikiEditable := true, PageName := "Foo",
            Body := "<p>hi</p>", EditPage := false } :=
  have h := save_then_view demoLib demoWiki emptyStore "Foo" "GET" "<p>hi</p>"
    [("body", "hi"), ("pass", "secret")] none (by decide) (by decide) (by decide) (by decide)
    (by decide) (by decide)
  ⟨h.1, h.2.1, h.2.2.2.1 (by decide) (by decide)⟩

/-- C5, as stated, fails for the empty storage directory: the file of `Foo` is
then `/Foo.md`, which lies in the root directory `/`, while the cleaned form of
the empty directory is `.`. -/
theorem getPageFilePath_inside_dir_counterexample :
    rootDirWiki.Dir = "" ∧
    (List.all "Foo".data isNameChar = true) ∧
    rootDirWiki.getPageFilePath "Foo" = "/Foo.md" ∧
    Dir (rootDirWiki.getPageFilePath "Foo") = "/" ∧
    Clean rootDirWiki.Dir = "." ∧
    Dir (rootDirWiki.getPageFilePath "Foo") ≠ Clean rootDirWiki.Dir := by
  decide

/-- C5, amended. For every non-empty storage directory `d` and every page name
`n` made only of characters in `[a-zA-Z0-9_-]`, `getPageFilePath n` is a cleaned
path (cleaning it again changes nothing), its last element (`filepath.Base`) is
exactly `n.md`, and what precedes that element (`filepath.Dir`) is the cleaned
form of `d`. -/
theorem getPageFilePath_inside_dir (wiki : Wiki) (n : String) (hd : wiki.Dir ≠ "")
    (hn : n.data.all isNameChar = true) :
    Clean (wiki.getPageFilePath n) = wiki.getPageFilePath n ∧
    Base (wiki.getPageFilePath n) = n ++ ".md" ∧
    Dir (wiki.getPageFilePath n) = Clean wiki.Dir :=
  pagePath_clean_base_dir wiki.Dir n hd hn

/-- C5 amended, at the directory `./pages/` and the page `Foo`. -/
theorem getPageFilePath_inside_dir_witness :
    Clean (demoWiki.getPageFilePath "Foo") = demoWiki.getPageFilePath "Foo" ∧
    Base (demoWiki.getPageFilePath "Foo") = "Foo" ++ ".md" ∧
    Dir (demoWiki.getPageFilePath "Foo") = Clean demoWiki.Dir :=
  getPageFilePath_inside_dir demoWiki "Foo" (by decide) (by decide)

/-- C10, at concrete stores: an unreadable file of `Foo` in the view flow and in
the edit flow, a missing file in the edit flow, a file that cannot be removed, a
missing file to remove, and a file that cannot be written. -/
theorem store_failure_answers_500_witness :
    (demoWiki.showPage demoLib ⟨"/Foo", "GET", none⟩
        (fooStore ⟨some "old", false, true, false, false⟩)).resp
      = Response.error "500 internal server error" 500 ∧
    (demoWiki.editPage demoLib ⟨"/e/Foo", "GET", none⟩
        (fooStore ⟨some "old", false, true, false, false⟩)).resp
      = Response.error "500 internal server error" 500 ∧
    (demoWiki.editPage demoLib ⟨"/e/Foo", "GET", none⟩ emptyStore).resp
      = Response.page htmlContentType
          { WikiName := demoWiki.Name, WikiEditable := true, PageName := "Foo",
            Body := "", EditPage := true } ∧
    (demoWiki.editPage demoLib (postFoo "" "secret")
        (fooStore ⟨some "old", false, false, false, true⟩)).resp
      = Response.error "500 internal server error" 500 ∧
    (demoWiki.editPage demoLib (postFoo "" "secret") emptyStore).resp
      = Response.error "500 internal server error" 500 ∧
    (demoWiki.editPage demoLib (postFoo "hi" "secret")
        (fooStore ⟨none, false, false, true, false⟩)).resp
      = Response.error "500 internal server error" 500 :=
  ⟨(store_failure_answers_500 demoLib demoWiki ⟨"/Foo", "GET", none⟩
      (fooStore ⟨some "old", false, true, false, false⟩) IOError.other).1 "Foo"
      (by decide) (by decide) (by decide),
    ((store_failure_answers_500 demoLib demoWiki ⟨"/e/Foo", "GET", none⟩
      (fooStore ⟨some "old", false, true, false, false⟩) IOError.other).2 "Foo"
      (by decide) (by decide)).1 rfl (by decide) |>.1 (by decide),
    ((store_failure_answers_500 demoLib demoWiki ⟨"/e/Foo", "GET", none⟩
      emptyStore IOError.notExist).2 "Foo"
      (by decide) (by decide)).1 rfl (by decide) |>.2 rfl,
    ((store_failure_answers_500 demoLib demoWiki (postFoo "" "secret")
      (fooStore ⟨some "old", false, false, false, true⟩) IOError.other).2 "Foo"
      (by decide) (by decide)).2 [("body", ""), ("pass", "secret")] (by decide) rfl (by decide)
      |>.1 (by decide) (by decide),
    ((store_failure_answers_500 demoLib demoWiki (postFoo "" "secret")
      emptyStore IOError.notExist).2 "Foo"
      (by decide) (by decide)).2 [("body", ""), ("pass", "secret")] (by decide) rfl (by decide)
      |>.2.1 (by decide) (by decide),
    ((store_failure_answers_500 demoLib demoWiki (postFoo "hi" "secret")
      (fooStore ⟨none, false, false, true, false⟩) IOError.other).2 "Foo"
      (by decide) (by decide)).2 [("body", "hi"), ("pass", "secret")] (by decide) rfl (by decide)
      |>.2.2 (by decide) (by decide)⟩

end Miniwiki
